import Mathlib

/-!
Verification development for the smart-crawler browser control panel.

The repository is a browser dashboard driving a remote automation agent:
commands go out over HTTP (start / pause / resume / stop), progress comes
back over a WebSocket stream (status / step / error events), and results can
be exported as CSV or JSON.  The main client is the 364-line
`BrowserUseClient` (src/unnamed/part_000); a second variant
(`BrowserAgentApp`, src/browser-use-web-app/frontend/js/app.js) contributes
the button-enable table, the reconnect backoff and the retry counter.

This file shallowly embeds the state held by those clients and the handlers
that mutate it.  DOM rendering is abstracted away: the progress-log DIV
becomes a list of message strings (timestamps elided), the browser console
becomes a second list, the screenshot IMG src becomes an `Option String`,
and the argument last passed to `updateButtons` is recorded in
`displayStatus` (the rendered disabled-flags are the pure function
`updateButtons` of it).  `JSON.parse` of an inbound frame is modelled by an
`Option Event` argument: `some e` is a successfully decoded frame, `none` a
frame on which the parse threw.
-/

/-- A result record as consumed by `showResults` / `exportCSV` in
src/unnamed/part_000: a semi-structured object of which only these nine
optional string fields are ever read. -/
structure Result where
  item : Option String := none
  title : Option String := none
  name : Option String := none
  description : Option String := none
  content : Option String := none
  price : Option String := none
  value : Option String := none
  url : Option String := none
  link : Option String := none
deriving DecidableEq, Repr

/-- JavaScript truthiness for an optional string field: `undefined` and the
empty string are falsy. -/
def truthy : Option String → Option String
  | some v => if v = "" then none else some v
  | none => none

/-- JavaScript `a || b` on a possibly-missing string, with `b` a string
default: returns `a` unless it is `undefined` or `""`. -/
def jsOrD : Option String → String → String
  | some v, d => if v = "" then d else v
  | none, d => d

/-- The four command buttons' `disabled` flags. -/
structure Buttons where
  startDisabled : Bool
  pauseDisabled : Bool
  continueDisabled : Bool
  stopDisabled : Bool
deriving DecidableEq, Repr

/-- `BrowserUseClient.updateButtons` (src/unnamed/part_000, lines 287-313):
all four buttons are first disabled, then the switch on the status string
re-enables the appropriate ones.  Statuses outside the four known ones leave
everything disabled. -/
def updateButtons (status : String) : Buttons :=
  if status = "idle" ∨ status = "completed" then
    { startDisabled := false, pauseDisabled := true, continueDisabled := true, stopDisabled := true }
  else if status = "running" then
    { startDisabled := true, pauseDisabled := false, continueDisabled := true, stopDisabled := false }
  else if status = "paused" then
    { startDisabled := true, pauseDisabled := true, continueDisabled := false, stopDisabled := false }
  else
    { startDisabled := true, pauseDisabled := true, continueDisabled := true, stopDisabled := true }

/-- The mutable state of `BrowserUseClient` (src/unnamed/part_000) visible
to the claims: the results array, the progress-log entries (message text,
timestamps elided), the console entries, the screenshot `src`, and
`displayStatus`, the status string last handed to `updateButtons` (`none`
before any call; the rendered flags are `updateButtons` applied to it). -/
structure ClientState where
  results : List Result
  log : List String
  consoleLog : List String
  screenshot : Option String
  displayStatus : Option String
deriving DecidableEq, Repr

/-- State after the constructor and `init` ran: empty results, the
`System ready` log line, no screenshot, buttons untouched. -/
def initState : ClientState :=
  { results := [], log := ["System ready"], consoleLog := [], screenshot := none,
    displayStatus := none }

/-- `this.log(message)`: append one entry to the progress log. -/
def logMsg (s : ClientState) (m : String) : ClientState :=
  { s with log := s.log ++ [m] }

/-- `console.log` / `console.error`: append one entry to the console. -/
def consoleMsg (s : ClientState) (m : String) : ClientState :=
  { s with consoleLog := s.consoleLog ++ [m] }

/-- A decoded stream event, discriminated on `data.type` exactly as the
switch in `BrowserUseClient.onMessage` does.  Field payloads that the
handler reads are carried; `status` carries `data.status` and an optional
`data.message`, `step` carries optional `message`, `url`, `screenshot` and
`results`, `error` carries `data.message`. -/
inductive Event where
  | connected (status : String)
  | status (status : String) (message : Option String)
  | step (message : Option String) (url : Option String) (screenshot : Option String)
      (results : Option (List Result))
  | error (message : String)
  | unknown (ty : String)
deriving DecidableEq, Repr

/-- Step handler, `if (data.message) this.log(data.message)`. -/
def stepLogMessage (s : ClientState) (m : Option String) : ClientState :=
  match truthy m with
  | some v => logMsg s v
  | none => s

/-- Step handler, `if (data.url) this.log('URL: ' + data.url)`. -/
def stepLogUrl (s : ClientState) (u : Option String) : ClientState :=
  match truthy u with
  | some v => logMsg s ("URL: " ++ v)
  | none => s

/-- Step handler, `if (data.screenshot) screenshot.src = data.screenshot`. -/
def stepShot (s : ClientState) (sc : Option String) : ClientState :=
  match truthy sc with
  | some v => { s with screenshot := some v }
  | none => s

/-- Step handler, `if (data.results && data.results.length > 0)
this.results = data.results` (followed by `showResults()`, a pure render):
present but empty arrays do not replace. -/
def stepResults (s : ClientState) (r : Option (List Result)) : ClientState :=
  match r with
  | some rs => if rs.length > 0 then { s with results := rs } else s
  | none => s

/-- `BrowserUseClient.onMessage` (src/unnamed/part_000, lines 207-249).
Every message is first echoed to the console; then the switch on
`data.type` runs.  `connected` and `status` hand their status to
`updateButtons`; `error` logs `ERROR: <message>` and hands `idle` to
`updateButtons`; unknown types only hit the console. -/
def onMessage (s0 : ClientState) (e : Event) : ClientState :=
  let s := consoleMsg s0 "WebSocket message"
  match e with
  | .connected st => { s with displayStatus := some st }
  | .status st m =>
      let s1 := { s with displayStatus := some st }
      let s2 := logMsg s1 ("Status: " ++ st)
      stepLogMessage s2 m
  | .step m u sc r => stepResults (stepShot (stepLogUrl (stepLogMessage s m) u) sc) r
  | .error m =>
      let s1 := logMsg s ("ERROR: " ++ m)
      { s1 with displayStatus := some "idle" }
  | .unknown ty => consoleMsg s ("Unknown message type: " ++ ty)

/-- `ws.onmessage` (src/unnamed/part_000, lines 36-43): `JSON.parse` inside
`try`, dispatch to `onMessage` on success, `console.error` and drop on a
parse exception.  The parse outcome is the `Option Event` argument. -/
def onRawMessage (s : ClientState) (parsed : Option Event) : ClientState :=
  match parsed with
  | some e => onMessage s e
  | none => consoleMsg s "Failed to parse WebSocket message"

/-- Outcome of the `start` HTTP request: 2xx with a task id in the JSON
body, non-2xx with an error text, or a thrown network error. -/
inductive StartOutcome where
  | ok (taskId : String)
  | httpError (errText : String)
  | netError (msg : String)
deriving DecidableEq, Repr

/-- Outcome of a body-less command request (`pause`, `resume`, `stop`). -/
inductive CmdOutcome where
  | ok
  | httpError (errText : String)
  | netError (msg : String)
deriving DecidableEq, Repr

/-- `BrowserUseClient.start` (src/unnamed/part_000, lines 73-118).
`task` is the trimmed textarea value, i.e. the method's local
`task = value.trim()` (the DOM read and the trim happen at entry); an empty
task alerts and returns with no state change.  Otherwise the start line is
logged, `this.results = []` clears previous results (and `showResults()`
re-renders the now-empty table), and the fetch is issued; a 2xx response
logs the task id and hands `running` to `updateButtons`, a non-2xx response
or a thrown error only logs.  The request body (model, context, image) has
no effect on the modelled state. -/
def start (s : ClientState) (task modelSel : String) (o : StartOutcome) : ClientState :=
  if task = "" then s
  else
    let s1 := logMsg s ("Starting task with " ++ modelSel ++ ": " ++ task)
    let s2 := { s1 with results := ([] : List Result) }
    match o with
    | .ok tid =>
        let s3 := logMsg s2 ("Task started with ID: " ++ tid)
        { s3 with displayStatus := some "running" }
    | .httpError e => logMsg s2 ("Failed to start: " ++ e)
    | .netError m => logMsg s2 ("Error starting task: " ++ m)

/-- `BrowserUseClient.pause` (src/unnamed/part_000, lines 120-131): logs the
attempt; only failures log further, and no state is set from the response. -/
def pause (s : ClientState) (o : CmdOutcome) : ClientState :=
  let s1 := logMsg s "Pausing agent..."
  match o with
  | .ok => s1
  | .httpError e => logMsg s1 ("Failed to pause: " ++ e)
  | .netError m => logMsg s1 ("Error pausing: " ++ m)

/-- `BrowserUseClient.resume` (src/unnamed/part_000, lines 133-144). -/
def resume (s : ClientState) (o : CmdOutcome) : ClientState :=
  let s1 := logMsg s "Resuming agent..."
  match o with
  | .ok => s1
  | .httpError e => logMsg s1 ("Failed to resume: " ++ e)
  | .netError m => logMsg s1 ("Error resuming: " ++ m)

/-- `BrowserUseClient.stop` (src/unnamed/part_000, lines 146-160): a 2xx
response logs `Agent stopped` and hands `idle` to `updateButtons`, i.e. the
displayed state is set from the command's HTTP response. -/
def stop (s : ClientState) (o : CmdOutcome) : ClientState :=
  let s1 := logMsg s "Stopping agent..."
  match o with
  | .ok =>
      let s2 := logMsg s1 "Agent stopped"
      { s2 with displayStatus := some "idle" }
  | .httpError e => logMsg s1 ("Failed to stop: " ++ e)
  | .netError m => logMsg s1 ("Error stopping: " ++ m)

/- ### ConnectionManager (src/unnamed/part_000, `connectWS`, lines 19-62) -/

/-- Transport-level state of the part_000 connection manager:
`intervalHandle` mirrors `this.wsReconnectInterval !== null`, and
`pendingTimers` counts the reconnect interval timers actually scheduled in
the environment (`setInterval` adds one, `clearInterval` removes it). -/
structure ConnState where
  intervalHandle : Bool
  pendingTimers : Nat
deriving DecidableEq, Repr

/-- Connection state right after the constructor:
`this.wsReconnectInterval = null`, nothing scheduled. -/
def initConn : ConnState :=
  { intervalHandle := false, pendingTimers := 0 }

/-- Transport events delivered to the handlers registered by `connectWS`:
socket open, socket close, socket error, and a tick of the reconnect
interval (which calls `connectWS` again and leaves the interval scheduled,
since `setInterval` repeats). -/
inductive ConnEvent where
  | wsOpen
  | wsClose
  | wsError
  | tick
deriving DecidableEq, Repr

/-- One step of the part_000 connection manager.  `onopen`: if a reconnect
interval is stored, `clearInterval` it and null the handle.  `onclose`: if
no interval is stored, `setInterval(() => this.connectWS(), 3000)` and store
the handle.  `onerror` only logs.  A tick re-runs `connectWS`, which touches
neither the handle nor the schedule. -/
def connStep (s : ConnState) (e : ConnEvent) : ConnState :=
  match e with
  | .wsOpen =>
      if s.intervalHandle then
        { intervalHandle := false, pendingTimers := s.pendingTimers - 1 }
      else s
  | .wsClose =>
      if s.intervalHandle then s
      else { intervalHandle := true, pendingTimers := s.pendingTimers + 1 }
  | .wsError => s
  | .tick => s

/-- Retry-counter state of the `BrowserAgentApp` connection manager
(src/browser-use-web-app/frontend/js/app.js). -/
structure FrontConn where
  isConnected : Bool
  reconnectAttempts : Nat
deriving DecidableEq, Repr

/-- `ws.onopen` of `BrowserAgentApp.connectWebSocket` (frontend/js/app.js,
lines 126-133): `isConnected = true; reconnectAttempts = 0`. -/
def frontendOnOpen (_c : FrontConn) : FrontConn :=
  { isConnected := true, reconnectAttempts := 0 }

/-- `BrowserAgentApp.attemptReconnect` (frontend/js/app.js, lines 164-176),
run from `onclose` after `isConnected = false`: while under the attempt cap
it bumps the counter and schedules one backoff timeout. -/
def frontendOnClose (c : FrontConn) : FrontConn :=
  let c1 := { c with isConnected := false }
  if c1.reconnectAttempts < 5 then
    { c1 with reconnectAttempts := c1.reconnectAttempts + 1 }
  else c1

/- ### Frontend SessionController surface (frontend/js/app.js) -/

/-- `BrowserAgentApp.updateStatus` (frontend/js/app.js, lines 235-247):
start is enabled exactly in `idle`, `completed` and `error`; pause only in
`running`; resume only in `paused`; stop outside the idle-like statuses. -/
def frontendButtons (status : String) : Buttons :=
  let isRunning : Bool := status == "running"
  let isPaused : Bool := status == "paused"
  let isIdle : Bool := status == "idle" || status == "completed" || status == "error"
  { startDisabled := !isIdle, pauseDisabled := !isRunning,
    continueDisabled := !isPaused, stopDisabled := isIdle }

/-- The `BrowserAgentApp` state visible to the claims: the status last
applied by `updateStatus` (the buttons render `frontendButtons` of it), the
log entries, and the trace of HTTP commands issued. -/
structure FrontendApp where
  status : String
  log : List String
  httpSent : List String
deriving DecidableEq, Repr

/-- The start form read by `BrowserAgentApp.startAgent`. -/
structure StartForm where
  apiKey : String
  task : String
  url : String
deriving DecidableEq, Repr

/-- `BrowserAgentApp.isValidUrl` checks that the browser URL constructor
accepts the string (after defaulting the scheme); the constructor is a
browser API, abstracted here to non-emptiness.  No claim depends on it. -/
def isValidUrlModel (s : String) : Bool :=
  !s.isEmpty

/-- `BrowserAgentApp.validateForm` (frontend/js/app.js, lines 393-417):
api key, task and URL must be non-blank and the URL must pass the check. -/
def validateForm (f : StartForm) : Bool :=
  !f.apiKey.trim.isEmpty && !f.task.trim.isEmpty &&
    (!f.url.trim.isEmpty && isValidUrlModel f.url.trim)

/-- Outcome of the frontend `start` fetch. -/
inductive StartHttp where
  | ok (taskId : String)
  | failed (detail : String)
deriving DecidableEq, Repr

/-- `BrowserAgentApp.startAgent` (frontend/js/app.js, lines 318-358): bail
out on an invalid form (the error modal is shown, nothing logged, no
fetch); otherwise issue the start request and log its outcome. -/
def startAgent (a : FrontendApp) (f : StartForm) (o : StartHttp) : FrontendApp :=
  if validateForm f then
    { a with httpSent := a.httpSent ++ ["start"],
             log := a.log ++ [match o with
               | .ok tid => "Agent started with task ID: " ++ tid
               | .failed d => d] }
  else a

/-- A user click on the start button: a disabled button fires no handler
(browser semantics), so `startAgent` only runs when `updateStatus` last
left the button enabled. -/
def clickStart (a : FrontendApp) (f : StartForm) (o : StartHttp) : FrontendApp :=
  if (frontendButtons a.status).startDisabled then a
  else startAgent a f o

/- ### CSV export (src/unnamed/part_000, `exportCSV`, lines 323-349) -/

/-- First CSV column, `r.item || r.title || r.name || ''`. -/
def csvLabel (r : Result) : String :=
  jsOrD r.item (jsOrD r.title (jsOrD r.name ""))

/-- Second CSV column, `r.description || r.content || ''`. -/
def csvDescription (r : Result) : String :=
  jsOrD r.description (jsOrD r.content "")

/-- Third CSV column, `r.price || r.value || ''`. -/
def csvValue (r : Result) : String :=
  jsOrD r.price (jsOrD r.value "")

/-- Fourth CSV column, `r.url || r.link || ''`. -/
def csvLink (r : Result) : String :=
  jsOrD r.url (jsOrD r.link "")

/-- One data row: `row.map(cell => quoted cell).join(',')` over the four
columns.  Note the cell text is interpolated verbatim between the quotes:
nothing is escaped. -/
def csvRow (r : Result) : String :=
  String.intercalate ","
    ([csvLabel r, csvDescription r, csvValue r, csvLink r].map
      (fun c => "\"" ++ c ++ "\""))

/-- `exportCSV`: the header line, then one line per record. -/
def exportCSV (rs : List Result) : String :=
  rs.foldl (fun csv r => csv ++ csvRow r ++ "\n") ("Item,Description,Price,URL" ++ "\n")


/- ### JSON export (src/unnamed/part_000, `exportJSON`, lines 351-365)

`exportJSON` is `JSON.stringify(results, null, 2)` on the raw records.  The
encoder below reproduces that output character-for-character for arrays of
flat objects with string fields: elements at indent 2, keys at indent 4
(in the declared field order, skipping absent fields, `\x7b\x7d` for an
empty object), with JSON string escaping for backslash, quote, newline, tab
and carriage return.  `decodeResults` is a parser specialized to this
format; it witnesses that the export is lossless. -/

/-- The left brace character. -/
def lbrace : Char := '\x7b'

/-- The right brace character. -/
def rbrace : Char := '\x7d'

/-- JSON string escaping of one character, as performed by JSON.stringify
on the characters occurring in the modelled field values. -/
def escChar (c : Char) : List Char :=
  if c = '\\' then ['\\', '\\']
  else if c = '"' then ['\\', '"']
  else if c = '\n' then ['\\', 'n']
  else if c = '\t' then ['\\', 't']
  else if c = '\r' then ['\\', 'r']
  else [c]

/-- JSON string escaping of a character sequence. -/
def escapeChars : List Char → List Char
  | [] => []
  | c :: cs => escChar c ++ escapeChars cs

/-- The key/value pair a present field contributes to the serialization. -/
def optF (k : String) : Option String → List (String × String)
  | some v => [(k, v)]
  | none => []

/-- The key/value pairs JSON.stringify serializes for a record: the present
fields among the nine modelled ones, in declaration order. -/
def recFieldsAssoc (r : Result) : List (String × String) :=
  optF "item" r.item ++ optF "title" r.title ++ optF "name" r.name ++
    optF "description" r.description ++ optF "content" r.content ++
    optF "price" r.price ++ optF "value" r.value ++
    optF "url" r.url ++ optF "link" r.link

/-- One serialized field: quoted key, colon, space, quoted escaped value. -/
def encodeKV (kv : String × String) : List Char :=
  '"' :: kv.fst.data ++ ['"', ':', ' ', '"'] ++ escapeChars kv.snd.data ++ ['"']

/-- Interleave a separator between encoded pieces (the `join` of the pretty
printer). -/
def joinSep (sep : List Char) : List (List Char) → List Char
  | [] => []
  | [x] => x
  | x :: y :: xs => x ++ sep ++ joinSep sep (y :: xs)

/-- Two-space indentation of array elements. -/
def indent2 : List Char := [' ', ' ']

/-- Four-space indentation of object fields. -/
def indent4 : List Char := [' ', ' ', ' ', ' ']

/-- The closing of a non-empty serialized record: newline, element indent,
closing brace. -/
def endRec : List Char := '\n' :: indent2 ++ [rbrace]

/-- One record as serialized inside the array by
`JSON.stringify(results, null, 2)`. -/
def encodeRec (r : Result) : List Char :=
  match recFieldsAssoc r with
  | [] => indent2 ++ [lbrace, rbrace]
  | fs => indent2 ++ [lbrace, '\n'] ++ indent4 ++
      joinSep ([',', '\n'] ++ indent4) (fs.map encodeKV) ++ endRec

/-- The full serialized array. -/
def encodeResults : List Result → List Char
  | [] => ['[', ']']
  | rs => ['[', '\n'] ++ joinSep [',', '\n'] (rs.map encodeRec) ++ ['\n', ']']

/-- `exportJSON` (src/unnamed/part_000, lines 351-365):
`JSON.stringify(browserUseClient.results, null, 2)`. -/
def exportJSON (rs : List Result) : String :=
  String.mk (encodeResults rs)

/-- Inverse of `escChar` on the character following a backslash. -/
def unescChar (c : Char) : Option Char :=
  if c = '\\' then some '\\'
  else if c = '"' then some '"'
  else if c = 'n' then some '\n'
  else if c = 't' then some '\t'
  else if c = 'r' then some '\r'
  else none

/-- Parse a JSON string body up to its closing quote, undoing the escapes;
returns the decoded characters and the remainder after the quote. -/
def parseString : List Char → Option (List Char × List Char)
  | [] => none
  | ['\\'] => none
  | '\\' :: d :: ds =>
    match unescChar d, parseString ds with
    | some u, some (v, rest) => some (u :: v, rest)
    | _, _ => none
  | c :: cs =>
    if c = '"' then some ([], cs)
    else
      match parseString cs with
      | some (v, rest) => some (c :: v, rest)
      | none => none

/-- Consume an expected literal prefix. -/
def stripLit : List Char → List Char → Option (List Char)
  | [], input => some input
  | _ :: _, [] => none
  | l :: ls, c :: cs => if c = l then stripLit ls cs else none

/-- The record with every field absent. -/
def emptyResult : Result := {}

/-- Store a decoded field under its key; unknown keys are dropped. -/
def setField (r : Result) (k v : String) : Result :=
  if k = "item" then { r with item := some v }
  else if k = "title" then { r with title := some v }
  else if k = "name" then { r with name := some v }
  else if k = "description" then { r with description := some v }
  else if k = "content" then { r with content := some v }
  else if k = "price" then { r with price := some v }
  else if k = "value" then { r with value := some v }
  else if k = "url" then { r with url := some v }
  else if k = "link" then { r with link := some v }
  else r

/-- Parse one `"key": "value"` item. -/
def parseKV (input : List Char) : Option ((String × String) × List Char) :=
  match input with
  | '"' :: rest =>
    match parseString rest with
    | some (k, rest1) =>
      match stripLit [':', ' ', '"'] rest1 with
      | some rest2 =>
        match parseString rest2 with
        | some (v, rest3) => some ((String.mk k, String.mk v), rest3)
        | none => none
      | none => none
    | none => none
  | _ => none

/-- Parse the fields of a non-empty object, accumulating them into a
record, until the closing `\x7d` of the object; fuelled by the number of
fields still allowed (an encoded record has at most nine). -/
def parseFieldsLoop : Nat → Result → List Char → Option (Result × List Char)
  | 0, _, _ => none
  | fuel + 1, acc, input =>
    match parseKV input with
    | none => none
    | some ((k, v), rest) =>
      let acc2 := setField acc k v
      match stripLit ([',', '\n'] ++ indent4) rest with
      | some rest2 => parseFieldsLoop fuel acc2 rest2
      | none =>
        match stripLit endRec rest with
        | some rest2 => some (acc2, rest2)
        | none => none

/-- Parse one serialized record (either `\x7b\x7d` or a field block). -/
def parseRec (input : List Char) : Option (Result × List Char) :=
  match stripLit (indent2 ++ [lbrace]) input with
  | none => none
  | some r1 =>
    match r1 with
    | [] => none
    | c :: rest =>
      if c = rbrace then some (emptyResult, rest)
      else if c = '\n' then
        match stripLit indent4 rest with
        | some r2 => parseFieldsLoop 10 emptyResult r2
        | none => none
      else none

/-- Parse the comma-newline separated array elements up to the closing
bracket; fuelled by the input length. -/
def parseElems : Nat → List Char → Option (List Result × List Char)
  | 0, _ => none
  | fuel + 1, input =>
    match parseRec input with
    | none => none
    | some (r, rest) =>
      match stripLit [',', '\n'] rest with
      | some rest2 =>
        match parseElems fuel rest2 with
        | some (rs, rest3) => some (r :: rs, rest3)
        | none => none
      | none =>
        match stripLit ['\n', ']'] rest with
        | some rest2 => some ([r], rest2)
        | none => none

/-- Decode a serialized result array; a left inverse of `exportJSON`. -/
def decodeResults (s : String) : Option (List Result) :=
  match s.data with
  | ['[', ']'] => some []
  | '[' :: '\n' :: rest =>
    match parseElems s.data.length rest with
    | some (rs, []) => some rs
    | _ => none
  | _ => none

/-- Replay of the decoded fields into a record, in serialization order. -/
def applyFields (acc : Result) (fs : List (String × String)) : Result :=
  fs.foldl (fun a kv => setField a kv.fst kv.snd) acc

/- ### Derived notions used by the theorems -/

/-- The status string an event hands to `updateButtons`, if any:
`connected` and `status` pass their own status, `error` passes the literal
`idle`, `step` and unknown events pass nothing. -/
def displayOf : Event → Option String
  | .connected st => some st
  | .status st _ => some st
  | .error _ => some "idle"
  | .step _ _ _ _ => none
  | .unknown _ => none

/-- The status handed to `updateButtons` by the last state-bearing event of
a sequence, if there is one. -/
def lastDisplay : List Event → Option String
  | [] => none
  | e :: es =>
    match lastDisplay es with
    | some st => some st
    | none => displayOf e

/-- The raw message handler acting on the session state paired with the
connection state: `ws.onmessage` never reads or writes
`wsReconnectInterval`, so the connection component passes through. -/
def fullOnRaw (p : ClientState × ConnState) (parsed : Option Event) :
    ClientState × ConnState :=
  (onRawMessage p.1 parsed, p.2)

/-- The single-pending-timer invariant of the part_000 connection manager:
exactly one interval is scheduled while the handle is stored, none
otherwise. -/
def connInv (s : ConnState) : Prop :=
  s.pendingTimers = (if s.intervalHandle then 1 else 0)

/-- A concrete result record, as in the spec scenario
`results:[{item:"X",price:"$10"}]`. -/
def resultX : Result := { item := some "X", price := some "$10" }

/-- A second concrete result record. -/
def resultY : Result := { item := some "Y" }

/-- A record whose label cell contains a quote-comma-quote sequence. -/
def collideA : Result := { item := some "x\",\"y" }

/-- A distinct record whose csv line coincides with the one of `collideA`
because `exportCSV` does not escape quotes inside cells. -/
def collideB : Result := { item := some "x", description := some "y", url := some "\",\"" }

/- ### Supporting lemmas -/

theorem stepLogMessage_results (s : ClientState) (m : Option String) :
    (stepLogMessage s m).results = s.results := by
  unfold stepLogMessage
  split <;> rfl

theorem stepLogUrl_results (s : ClientState) (u : Option String) :
    (stepLogUrl s u).results = s.results := by
  unfold stepLogUrl
  split <;> rfl

theorem stepShot_results (s : ClientState) (sc : Option String) :
    (stepShot s sc).results = s.results := by
  unfold stepShot
  split <;> rfl

theorem stepLogMessage_displayStatus (s : ClientState) (m : Option String) :
    (stepLogMessage s m).displayStatus = s.displayStatus := by
  unfold stepLogMessage
  split <;> rfl

theorem stepLogUrl_displayStatus (s : ClientState) (u : Option String) :
    (stepLogUrl s u).displayStatus = s.displayStatus := by
  unfold stepLogUrl
  split <;> rfl

theorem stepShot_displayStatus (s : ClientState) (sc : Option String) :
    (stepShot s sc).displayStatus = s.displayStatus := by
  unfold stepShot
  split <;> rfl

theorem stepResults_displayStatus (s : ClientState) (r : Option (List Result)) :
    (stepResults s r).displayStatus = s.displayStatus := by
  unfold stepResults
  split
  · split <;> rfl
  · rfl

theorem onMessage_step_results (s : ClientState) (m u sc : Option String)
    (r : Option (List Result)) :
    (onMessage s (Event.step m u sc r)).results =
      match r with
      | some rs => if rs.length > 0 then rs else s.results
      | none => s.results := by
  have hbase :
      (stepShot (stepLogUrl (stepLogMessage (consoleMsg s "WebSocket message") m) u) sc).results
        = s.results := by
    rw [stepShot_results, stepLogUrl_results, stepLogMessage_results]
    rfl
  show (stepResults _ r).results = _
  unfold stepResults
  cases r with
  | none => exact hbase
  | some rs =>
    by_cases hrs : rs.length > 0 <;> simp [hrs, hbase]

theorem onMessage_displayStatus (s : ClientState) (e : Event) :
    (onMessage s e).displayStatus =
      match displayOf e with
      | some st => some st
      | none => s.displayStatus := by
  cases e with
  | connected st => rfl
  | status st m =>
    show (stepLogMessage _ m).displayStatus = _
    rw [stepLogMessage_displayStatus]
    rfl
  | step m u sc r =>
    show (stepResults _ r).displayStatus = _
    rw [stepResults_displayStatus, stepShot_displayStatus, stepLogUrl_displayStatus,
      stepLogMessage_displayStatus]
    rfl
  | error m => rfl
  | unknown ty => rfl

theorem lastDisplay_cons (e : Event) (es : List Event) :
    lastDisplay (e :: es) =
      match lastDisplay es with
      | some st => some st
      | none => displayOf e := rfl

theorem connStep_inv (s : ConnState) (e : ConnEvent) (h : connInv s) :
    connInv (connStep s e) := by
  cases e with
  | wsOpen =>
    by_cases hh : s.intervalHandle <;> simp [connStep, connInv, hh] at h ⊢ <;> omega
  | wsClose =>
    by_cases hh : s.intervalHandle <;> simp [connStep, connInv, hh] at h ⊢ <;> omega
  | wsError => exact h
  | tick => exact h

theorem connReach_inv (evts : List ConnEvent) :
    connInv (List.foldl connStep initConn evts) := by
  have step : ∀ (l : List ConnEvent) (s : ConnState), connInv s →
      connInv (List.foldl connStep s l) := by
    intro l
    induction l with
    | nil => intro s h; exact h
    | cons e es ih =>
      intro s h
      exact ih (connStep s e) (connStep_inv s e h)
  exact step evts initConn rfl

/- ### Claim theorems -/

/-- Claim C1, counterexample: after a `status: running` stream event, a
2xx response to the `stop` command sets the displayed state to `idle`,
so the state is taken from a command HTTP response and no longer equals the
state carried by the last state-bearing stream event. -/
theorem stop_response_overrides_stream_state :
    (stop (onMessage initState (Event.status "running" none)) CmdOutcome.ok).displayStatus
        = some "idle" ∧
    (onMessage initState (Event.status "running" none)).displayStatus = some "running" ∧
    (some "idle" : Option String) ≠ some "running" := by decide

/-- Claim C1, amended: over stream events alone the displayed state equals
the status handed over by the last state-bearing event, where `status` and
`connected` events carry their status field and `error` events carry
`idle`; however `stop` (on 2xx) and `start` (on 2xx) additionally set the
displayed state from the command HTTP response. -/
theorem state_follows_last_state_bearing_event (evts : List Event) (s : ClientState) :
    (List.foldl onMessage s evts).displayStatus =
      match lastDisplay evts with
      | some st => some st
      | none => s.displayStatus := by
  induction evts generalizing s with
  | nil => rfl
  | cons e es ih =>
    rw [List.foldl_cons, ih (onMessage s e), lastDisplay_cons]
    cases h : lastDisplay es with
    | some st => rfl
    | none => exact onMessage_displayStatus s e

/-- Claim C2, counterexample: a `step` event carrying a present but empty
`results` array does not replace the previous results, so after a step
event with `[resultX]` followed by one with `[]` the results are still
`[resultX]`, not the second array. -/
theorem empty_results_array_not_replacing :
    (onMessage (onMessage initState (Event.step none none none (some [resultX])))
        (Event.step none none none (some ([] : List Result)))).results = [resultX] ∧
    [resultX] ≠ ([] : List Result) := by decide

/-- Claim C2, amended: for every `step` event carrying a non-empty
`results` array the event replaces `Session.results` wholesale, so for two
successive `step` events each carrying a non-empty results array the final
results equal exactly the second array. -/
theorem nonempty_results_replaced_wholesale (s : ClientState)
    (m1 u1 sc1 m2 u2 sc2 : Option String) (rs1 rs2 : List Result)
    (_h1 : rs1 ≠ []) (h2 : rs2 ≠ []) :
    (onMessage (onMessage s (Event.step m1 u1 sc1 (some rs1)))
        (Event.step m2 u2 sc2 (some rs2))).results = rs2 := by
  have hlen : rs2.length > 0 := List.length_pos.mpr h2
  rw [onMessage_step_results]
  simp [hlen]

/-- Witness for the amended C2 theorem at concrete inputs. -/
theorem nonempty_results_replaced_wholesale_witness :
    (onMessage (onMessage initState (Event.step none none none (some [resultX])))
        (Event.step none none none (some [resultY]))).results = [resultY] :=
  nonempty_results_replaced_wholesale initState none none none none none none
    [resultX] [resultY] (by decide) (by decide)

/-- Claim C3: a stream payload on which `JSON.parse` throws is dropped
inside the `try`/`catch` of `ws.onmessage` without escaping the handler:
results, progress log, displayed state, screenshot and the connection state
are all unchanged, and exactly one console entry records the drop. -/
theorem malformed_payload_dropped_logged_once (c : ClientState) (k : ConnState) :
    fullOnRaw (c, k) none =
      ({ c with consoleLog := c.consoleLog ++ ["Failed to parse WebSocket message"] }, k) := rfl

/-- Claim C4: in every state of the part_000 connection manager reachable
from the initial state by transport events, at most one reconnect interval
is pending; a successful open always cancels any pending interval (so no
previously scheduled reconnect fires after a reopen), and the frontend
variant's open handler resets the retry counter to zero. -/
theorem reconnect_timer_invariant :
    (∀ evts : List ConnEvent,
        (List.foldl connStep initConn evts).pendingTimers ≤ 1 ∧
        (connStep (List.foldl connStep initConn evts) ConnEvent.wsOpen).pendingTimers = 0 ∧
        (connStep (List.foldl connStep initConn evts) ConnEvent.wsOpen).intervalHandle = false) ∧
    (∀ c : FrontConn, (frontendOnOpen c).reconnectAttempts = 0) := by
  constructor
  · intro evts
    have h := connReach_inv evts
    unfold connInv at h
    set s := List.foldl connStep initConn evts with hs
    by_cases hh : s.intervalHandle <;> simp [connStep, hh] at h ⊢ <;> omega
  · intro c
    rfl

/-- Claim C5: with the displayed status `running` or `paused`, the
frontend leaves the start button disabled, so a start click fires no
handler: no HTTP request is issued and the session state is unchanged; and
the start button is enabled exactly when the status is `idle`, `completed`
or `error`, so the start fetch can only be issued from those states. -/
theorem start_rejected_when_running_or_paused :
    (∀ (a : FrontendApp) (f : StartForm) (o : StartHttp),
        a.status = "running" ∨ a.status = "paused" → clickStart a f o = a) ∧
    (∀ st : String, (frontendButtons st).startDisabled = false ↔
        st = "idle" ∨ st = "completed" ∨ st = "error") := by
  constructor
  · rintro a f o (h | h) <;>
      · have hd : (frontendButtons a.status).startDisabled = true := by
          rw [h]; decide
        simp [clickStart, hd]
  · intro st
    by_cases h1 : st = "idle" <;> by_cases h2 : st = "completed" <;>
      by_cases h3 : st = "error" <;> simp [frontendButtons, h1, h2, h3]

/-- Witness for C5 at a concrete running state. -/
theorem start_rejected_when_running_or_paused_witness :
    clickStart { status := "running", log := [], httpSent := [] }
      { apiKey := "k", task := "t", url := "https://example.com" } (StartHttp.ok "t1") =
      { status := "running", log := [], httpSent := [] } :=
  start_rejected_when_running_or_paused.1
    { status := "running", log := [], httpSent := [] }
    { apiKey := "k", task := "t", url := "https://example.com" } (StartHttp.ok "t1")
    (Or.inl rfl)

/-- Claim C6, counterexample: an `error` stream event hands `idle`, not
`error`, to `updateButtons`, so the session does not end in a distinct
Error state. -/
theorem error_event_sets_idle_not_error :
    (onMessage initState (Event.error "agent failed")).displayStatus = some "idle" ∧
    (onMessage initState (Event.error "agent failed")).displayStatus ≠ some "error" := by
  decide

/-- Claim C6, amended: every `error` stream event appends
`ERROR: <message>` to the log and sets the displayed state to `idle`
(which re-enables the start button, so a fresh `start` is possible), rather
than to a distinct Error state. -/
theorem error_event_logs_and_resets_to_idle (s : ClientState) (m : String) :
    onMessage s (Event.error m) =
      { s with consoleLog := s.consoleLog ++ ["WebSocket message"],
               log := s.log ++ ["ERROR: " ++ m],
               displayStatus := some "idle" } := rfl

/-- Claim C7: when the `start` fetch fails (non-2xx, or a thrown network
error), the displayed state, screenshot and console are exactly as before
the command; besides the start announcement, exactly one log entry
describes the failure; and nothing else happens — in particular no retry is
scheduled (the method has no scheduling effect at all).  The results were
cleared before the fetch, which is claim C10's subject. -/
theorem start_failure_leaves_state_logs_once (s : ClientState) (task modelSel msg : String)
    (h : task ≠ "") :
    start s task modelSel (StartOutcome.httpError msg) =
      { s with results := [],
               log := s.log ++ ["Starting task with " ++ modelSel ++ ": " ++ task,
                 "Failed to start: " ++ msg] } ∧
    start s task modelSel (StartOutcome.netError msg) =
      { s with results := [],
               log := s.log ++ ["Starting task with " ++ modelSel ++ ": " ++ task,
                 "Error starting task: " ++ msg] } := by
  constructor <;> simp [start, h, logMsg]

/-- Witness for C7 at concrete inputs. -/
theorem start_failure_leaves_state_logs_once_witness :
    start initState "find X" "gpt-4" (StartOutcome.httpError "boom") =
      { initState with
          results := [],
          log := initState.log ++ ["Starting task with " ++ "gpt-4" ++ ": " ++ "find X",
            "Failed to start: " ++ "boom"] } :=
  (start_failure_leaves_state_logs_once initState "find X" "gpt-4" "boom" (by decide)).1

/-- Claim C9: a `step` event whose `results` field is a present but empty
array leaves `Session.results` (and the displayed state) unchanged while
its message is still logged and its screenshot still applied. -/
theorem empty_results_frame_effect (s : ClientState) (m sc : String)
    (hm : m ≠ "") (hsc : sc ≠ "") :
    onMessage s (Event.step (some m) none (some sc) (some ([] : List Result))) =
      { s with consoleLog := s.consoleLog ++ ["WebSocket message"],
               log := s.log ++ [m], screenshot := some sc } := by
  simp [onMessage, stepResults, stepShot, stepLogUrl, stepLogMessage, truthy, hm, hsc,
    logMsg, consoleMsg]

/-- Witness for C9 at concrete inputs. -/
theorem empty_results_frame_effect_witness :
    onMessage initState (Event.step (some "opened page") none (some "img.png")
        (some ([] : List Result))) =
      { initState with
          consoleLog := initState.consoleLog ++ ["WebSocket message"],
          log := initState.log ++ ["opened page"], screenshot := some "img.png" } :=
  empty_results_frame_effect initState "opened page" "img.png" (by decide) (by decide)

/-- Claim C10: every `start` invocation with a non-empty (trimmed) task
clears `Session.results` before the fetch, so the previous run's results
are discarded whatever the HTTP outcome — success, non-2xx or network
error. -/
theorem start_clears_results_unconditionally (s : ClientState) (task modelSel : String)
    (o : StartOutcome) (h : task ≠ "") :
    (start s task modelSel o).results = [] := by
  cases o <;> simp [start, h, logMsg]

/-- Witness for C10 at concrete inputs. -/
theorem start_clears_results_unconditionally_witness :
    (start initState "find X" "gpt-4" (StartOutcome.ok "t1")).results = [] :=
  start_clears_results_unconditionally initState "find X" "gpt-4" (StartOutcome.ok "t1")
    (by decide)

/- ### JSON round-trip lemmas -/

theorem stringMk_data (s : String) : String.mk s.data = s := rfl

theorem stripLit_append (l rest : List Char) : stripLit l (l ++ rest) = some rest := by
  induction l with
  | nil => rfl
  | cons c cs ih => simp [stripLit, ih]

theorem escChar_eval : escChar '\\' = ['\\', '\\'] ∧ escChar '"' = ['\\', '"'] ∧
    escChar '\n' = ['\\', 'n'] ∧ escChar '\t' = ['\\', 't'] ∧
    escChar '\r' = ['\\', 'r'] := by
  refine ⟨rfl, rfl, rfl, rfl, rfl⟩

theorem unescChar_eval : unescChar '\\' = some '\\' ∧ unescChar '"' = some '"' ∧
    unescChar 'n' = some '\n' ∧ unescChar 't' = some '\t' ∧
    unescChar 'r' = some '\r' := by
  refine ⟨rfl, rfl, rfl, rfl, rfl⟩

theorem escChar_other (c : Char) (h1 : c ≠ '\\') (h2 : c ≠ '"') (h3 : c ≠ '\n')
    (h4 : c ≠ '\t') (h5 : c ≠ '\r') : escChar c = [c] := by
  simp [escChar, h1, h2, h3, h4, h5]

theorem parseString_escape (v rest : List Char) :
    parseString (escapeChars v ++ '"' :: rest) = some (v, rest) := by
  induction v with
  | nil => rfl
  | cons c cs ih =>
    by_cases h1 : c = '\\'
    · subst h1; simp [escapeChars, escChar_eval.1, parseString, unescChar_eval.1, ih]
    · by_cases h2 : c = '"'
      · subst h2; simp [escapeChars, escChar_eval.2.1, parseString, unescChar_eval.2.1, ih]
      · by_cases h3 : c = '\n'
        · subst h3; simp [escapeChars, escChar_eval.2.2.1, parseString, unescChar_eval.2.2.1, ih]
        · by_cases h4 : c = '\t'
          · subst h4
            simp [escapeChars, escChar_eval.2.2.2.1, parseString, unescChar_eval.2.2.2.1, ih]
          · by_cases h5 : c = '\r'
            · subst h5
              simp [escapeChars, escChar_eval.2.2.2.2, parseString, unescChar_eval.2.2.2.2, ih]
            · rw [escapeChars, escChar_other c h1 h2 h3 h4 h5]
              simp [parseString, h1, h2, ih]


theorem optF_mem_fst (k : String) (o : Option String) (kv : String × String)
    (h : kv ∈ optF k o) : kv.fst = k := by
  cases o with
  | none => simp [optF] at h
  | some v =>
    simp [optF] at h
    rw [h]

theorem optF_eq_nil (k : String) (o : Option String) : optF k o = [] ↔ o = none := by
  cases o <;> simp [optF]

theorem optF_length (k : String) (o : Option String) : (optF k o).length ≤ 1 := by
  cases o <;> simp [optF]

theorem recFieldsAssoc_keys (r : Result) (kv : String × String)
    (h : kv ∈ recFieldsAssoc r) : escapeChars kv.fst.data = kv.fst.data := by
  simp only [recFieldsAssoc, List.mem_append] at h
  rcases h with ((((((((h | h) | h) | h) | h) | h) | h) | h) | h) <;>
    rw [optF_mem_fst _ _ _ h] <;> rfl

theorem recFieldsAssoc_length (r : Result) : (recFieldsAssoc r).length ≤ 9 := by
  have h1 := optF_length "item" r.item
  have h2 := optF_length "title" r.title
  have h3 := optF_length "name" r.name
  have h4 := optF_length "description" r.description
  have h5 := optF_length "content" r.content
  have h6 := optF_length "price" r.price
  have h7 := optF_length "value" r.value
  have h8 := optF_length "url" r.url
  have h9 := optF_length "link" r.link
  simp only [recFieldsAssoc, List.length_append]
  omega

theorem recFieldsAssoc_nil (r : Result) (h : recFieldsAssoc r = []) : r = emptyResult := by
  simp only [recFieldsAssoc, List.append_eq_nil, optF_eq_nil] at h
  obtain ⟨⟨⟨⟨⟨⟨⟨⟨h1, h2⟩, h3⟩, h4⟩, h5⟩, h6⟩, h7⟩, h8⟩, h9⟩ := h
  cases r
  simp_all [emptyResult]

set_option maxHeartbeats 2000000 in
theorem applyFields_recFields (r : Result) :
    applyFields emptyResult (recFieldsAssoc r) = r := by
  cases r with
  | mk i t n d c p v u l =>
    rcases i with _ | vi <;> rcases t with _ | vt <;> rcases n with _ | vn <;>
      rcases d with _ | vd <;> rcases c with _ | vc <;> rcases p with _ | vp <;>
      rcases v with _ | vv <;> rcases u with _ | vu <;> rcases l with _ | vl <;> rfl

theorem parseKV_encodeKV (kv : String × String) (rest : List Char)
    (hk : escapeChars kv.fst.data = kv.fst.data) :
    parseKV (encodeKV kv ++ rest) = some (kv, rest) := by
  obtain ⟨k, v⟩ := kv
  have h1 : encodeKV (k, v) ++ rest =
      '"' :: (escapeChars k.data ++ '"' :: (':' :: ' ' :: '"' ::
        (escapeChars v.data ++ '"' :: rest))) := by
    rw [hk]
    simp [encodeKV]
  rw [h1]
  simp [parseKV, parseString_escape, stripLit]

theorem stripOpen_eval (x : List Char) :
    stripLit (indent2 ++ [lbrace]) (' ' :: ' ' :: lbrace :: x) = some x := rfl

theorem stripSep_none (x : List Char) :
    stripLit ([',', '\n'] ++ indent4) ('\n' :: ' ' :: ' ' :: rbrace :: x) = none := rfl

theorem stripSep_some (x : List Char) :
    stripLit ([',', '\n'] ++ indent4) (',' :: '\n' :: ' ' :: ' ' :: ' ' :: ' ' :: x) =
      some x := rfl

theorem stripEnd_some (x : List Char) :
    stripLit endRec ('\n' :: ' ' :: ' ' :: rbrace :: x) = some x := rfl

theorem parseRec_body (y : List Char) :
    parseRec (' ' :: ' ' :: lbrace :: '\n' :: ' ' :: ' ' :: ' ' :: ' ' :: y) =
      parseFieldsLoop 10 emptyResult y := rfl

theorem parseFieldsLoop_succ_of_parseKV (fuel : Nat) (acc : Result) (input : List Char)
    (kv : String × String) (rest : List Char) (hp : parseKV input = some (kv, rest)) :
    parseFieldsLoop (fuel + 1) acc input =
      match stripLit ([',', '\n'] ++ indent4) rest with
      | some rest2 => parseFieldsLoop fuel (setField acc kv.fst kv.snd) rest2
      | none =>
        match stripLit endRec rest with
        | some rest2 => some (setField acc kv.fst kv.snd, rest2)
        | none => none := by
  obtain ⟨k, v⟩ := kv
  simp [parseFieldsLoop, hp]

theorem parseFieldsLoop_encode (fs : List (String × String)) :
    ∀ (fuel : Nat) (acc : Result) (tail : List Char), fs ≠ [] → fs.length ≤ fuel →
    (∀ kv ∈ fs, escapeChars (Prod.fst kv).data = (Prod.fst kv).data) →
    parseFieldsLoop fuel acc
        (joinSep [',', '\n', ' ', ' ', ' ', ' '] (fs.map encodeKV) ++
          '\n' :: ' ' :: ' ' :: rbrace :: tail) =
      some (applyFields acc fs, tail) := by
  induction fs with
  | nil => intro fuel acc tail hne; exact absurd rfl hne
  | cons kv fs ih =>
    intro fuel acc tail hne hlen hkeys
    obtain ⟨n, rfl⟩ : ∃ n, fuel = n + 1 :=
      ⟨fuel - 1, by simp at hlen; omega⟩
    have hk := hkeys kv (List.mem_cons_self _ _)
    cases fs with
    | nil =>
      simp only [List.map, joinSep, List.append_assoc, List.cons_append, List.nil_append]
      rw [parseFieldsLoop_succ_of_parseKV n acc _ kv _
        (parseKV_encodeKV kv _ hk), stripSep_none, stripEnd_some]
      simp [applyFields]
    | cons kv2 fs2 =>
      simp only [List.map, joinSep, List.append_assoc, List.cons_append, List.nil_append]
      rw [parseFieldsLoop_succ_of_parseKV n acc _ kv _
        (parseKV_encodeKV kv _ hk), stripSep_some]
      have hih := ih n (setField acc kv.fst kv.snd) tail (by simp)
        (by simp at hlen ⊢; omega) (fun z hz => hkeys z (List.mem_cons_of_mem _ hz))
      simp only [List.map] at hih
      show parseFieldsLoop n (setField acc kv.fst kv.snd)
          (joinSep [',', '\n', ' ', ' ', ' ', ' '] (encodeKV kv2 :: List.map encodeKV fs2) ++
            '\n' :: ' ' :: ' ' :: rbrace :: tail) =
        some (applyFields acc (kv :: kv2 :: fs2), tail)
      rw [hih]
      simp [applyFields]

set_option maxRecDepth 8000 in
theorem parseRec_encodeRec (r : Result) (tail : List Char) :
    parseRec (encodeRec r ++ tail) = some (r, tail) := by
  cases h : recFieldsAssoc r with
  | nil =>
    have hr := recFieldsAssoc_nil r h
    subst hr
    rfl
  | cons f fs =>
    have hlen : (f :: fs).length ≤ 10 := by
      have h9 := recFieldsAssoc_length r
      rw [h] at h9
      omega
    have hkeys : ∀ kv ∈ f :: fs, escapeChars (Prod.fst kv).data = (Prod.fst kv).data := by
      intro kv hkv
      exact recFieldsAssoc_keys r kv (by rw [h]; exact hkv)
    have he : encodeRec r ++ tail =
        ' ' :: ' ' :: lbrace :: '\n' :: ' ' :: ' ' :: ' ' :: ' ' ::
          (joinSep [',', '\n', ' ', ' ', ' ', ' '] ((f :: fs).map encodeKV) ++
            '\n' :: ' ' :: ' ' :: rbrace :: tail) := by
      unfold encodeRec
      rw [h]
      simp [indent2, indent4, endRec, List.append_assoc]
    rw [he, parseRec_body,
      parseFieldsLoop_encode (f :: fs) 10 emptyResult tail (by simp) hlen hkeys,
      ← h, applyFields_recFields]

theorem stripElemSep_some (x : List Char) :
    stripLit [',', '\n'] (',' :: '\n' :: x) = some x := rfl

theorem stripElemSep_none (x : List Char) :
    stripLit [',', '\n'] ('\n' :: ']' :: x) = none := rfl

theorem stripElemEnd_some (x : List Char) :
    stripLit ['\n', ']'] ('\n' :: ']' :: x) = some x := rfl

theorem parseElems_succ_of_parseRec (fuel : Nat) (input : List Char) (r : Result)
    (rest : List Char) (hp : parseRec input = some (r, rest)) :
    parseElems (fuel + 1) input =
      match stripLit [',', '\n'] rest with
      | some rest2 =>
        match parseElems fuel rest2 with
        | some (rs, rest3) => some (r :: rs, rest3)
        | none => none
      | none =>
        match stripLit ['\n', ']'] rest with
        | some rest2 => some ([r], rest2)
        | none => none := by
  simp only [parseElems, hp]

theorem parseElems_encode (rs : List Result) :
    ∀ (fuel : Nat) (tail : List Char), rs ≠ [] → rs.length ≤ fuel →
    parseElems fuel (joinSep [',', '\n'] (rs.map encodeRec) ++ '\n' :: ']' :: tail) =
      some (rs, tail) := by
  induction rs with
  | nil => intro fuel tail hne; exact absurd rfl hne
  | cons r rs ih =>
    intro fuel tail hne hlen
    obtain ⟨n, rfl⟩ : ∃ n, fuel = n + 1 := ⟨fuel - 1, by simp at hlen; omega⟩
    cases rs with
    | nil =>
      simp only [List.map, joinSep]
      rw [parseElems_succ_of_parseRec n _ r _ (parseRec_encodeRec r _),
        stripElemSep_none, stripElemEnd_some]
    | cons r2 rs2 =>
      simp only [List.map, joinSep, List.append_assoc, List.cons_append, List.nil_append]
      rw [parseElems_succ_of_parseRec n _ r _ (parseRec_encodeRec r _),
        stripElemSep_some]
      have hih := ih n tail (by simp) (by simp at hlen ⊢; omega)
      simp only [List.map] at hih
      show (match parseElems n (joinSep [',', '\n']
          (encodeRec r2 :: List.map encodeRec rs2) ++ '\n' :: ']' :: tail) with
        | some (rs, rest3) => some (r :: rs, rest3)
        | none => none) = some (r :: r2 :: rs2, tail)
      rw [hih]

theorem encodeRec_length_pos (r : Result) : 1 ≤ (encodeRec r).length := by
  unfold encodeRec
  cases recFieldsAssoc r <;> simp [indent2]

theorem joinSep_length (sep : List Char) (ls : List (List Char))
    (h : ∀ x ∈ ls, 1 ≤ x.length) : ls.length ≤ (joinSep sep ls).length := by
  induction ls with
  | nil => simp [joinSep]
  | cons x xs ih =>
    cases xs with
    | nil => simpa [joinSep] using h x (List.mem_cons_self _ _)
    | cons y ys =>
      have hx := h x (List.mem_cons_self _ _)
      have hr := ih (fun z hz => h z (List.mem_cons_of_mem _ hz))
      simp only [joinSep, List.length_append, List.length_cons] at hr ⊢
      omega

theorem decodeResults_body (y : List Char) :
    decodeResults (String.mk ('[' :: '\n' :: y)) =
      match parseElems ('[' :: '\n' :: y).length y with
      | some (rs, []) => some rs
      | _ => none := rfl

theorem decode_encode (rs : List Result) : decodeResults (exportJSON rs) = some rs := by
  cases rs with
  | nil => rfl
  | cons r rs =>
    have henc : exportJSON (r :: rs) =
        String.mk ('[' :: '\n' ::
          (joinSep [',', '\n'] ((r :: rs).map encodeRec) ++
            '\n' :: ']' :: ([] : List Char))) := by
      simp [exportJSON, encodeResults]
    have hlen : (r :: rs).length ≤
        ('[' :: '\n' :: (joinSep [',', '\n'] ((r :: rs).map encodeRec) ++
          '\n' :: ']' :: ([] : List Char))).length := by
      have hj := joinSep_length [',', '\n'] ((r :: rs).map encodeRec)
        (by intro x hx
            simp only [List.mem_map] at hx
            obtain ⟨q, _, rfl⟩ := hx
            exact encodeRec_length_pos q)
      simp only [List.length_cons, List.length_append, List.length_map] at hj ⊢
      omega
    rw [henc, decodeResults_body]
    rw [parseElems_encode (r :: rs) _ [] (by simp) hlen]

theorem csvRow_shape (r : Result) :
    csvRow r = "\"" ++ csvLabel r ++ "\"" ++ "," ++ "\"" ++ csvDescription r ++ "\"" ++
      "," ++ "\"" ++ csvValue r ++ "\"" ++ "," ++ "\"" ++ csvLink r ++ "\"" := by
  have hlit : ∀ x : String, "\"," ++ ("\"" ++ x) = "\",\"" ++ x := by
    intro x
    rw [← String.append_assoc]
    rfl
  simp [csvRow, String.intercalate, String.intercalate.go, String.append_assoc, hlit]

theorem exportCSV_append (rs : List Result) (r : Result) :
    exportCSV (rs ++ [r]) = exportCSV rs ++ csvRow r ++ "\n" := by
  simp [exportCSV, List.foldl_append]

/-- Claim C8, counterexample: two distinct result lists whose CSV exports
are the same string, because a quote inside a cell is interpolated
verbatim; the original records are therefore not recoverable from the
produced CSV. -/
theorem csv_collision :
    exportCSV [collideA] = exportCSV [collideB] ∧ [collideA] ≠ [collideB] := by decide

/-- Claim C8, amended: the CSV export appends one row per record in the
fixed column order label, description, value, link with every cell wrapped
in quotes, but nothing inside a cell is escaped, so the CSV is not lossless
(see the counterexample); the JSON export, `JSON.stringify` of the raw
records with indent 2, round-trips the records exactly, witnessed by the
parser `decodeResults`. -/
theorem csv_quoted_and_json_roundtrip :
    (∀ (rs : List Result) (r : Result),
        exportCSV (rs ++ [r]) = exportCSV rs ++ csvRow r ++ "\n") ∧
    (∀ r : Result, csvRow r =
        "\"" ++ csvLabel r ++ "\"" ++ "," ++ "\"" ++ csvDescription r ++ "\"" ++ "," ++
          "\"" ++ csvValue r ++ "\"" ++ "," ++ "\"" ++ csvLink r ++ "\"") ∧
    (∀ rs : List Result, decodeResults (exportJSON rs) = some rs) :=
  ⟨exportCSV_append, csvRow_shape, decode_encode⟩
